import Mathlib

/-!
Shallow embedding of the combat-effect resolution subsystem of
`wowie-jam-4` (`src/model/effect.rs`): the effect data model, the
context resolver, the ballistic solver `aim_parabollically`, and the
per-variant processors (Projectile, Damage, Heal, Dash).

Numeric types (`Coord`, `Time`, `Hp` — `r32` floats in the engine) are
embedded as real numbers; `approx_eq` against zero is modelled as exact
equality with zero.  Fallible code (the `?` early return and the
`expect`-style hard lookups) is modelled with `Option`: a hard-lookup
failure (a panic in the engine) is `none`, while the soft early return
of `ProjectileEffect::process` yields the unchanged state.

Types that live outside `effect.rs` (vectors, the `Logic`/`Model`
state, units, id generation, health, animations) are modelled from the
specification; each such definition is marked `Modelled from the spec`.
-/

namespace Game

/-- Modelled from the spec: 2D vector over the reals (the engine's `vec2<Coord>`). -/
@[ext]
structure Vec2 where
  x : ℝ
  y : ℝ

instance : Add Vec2 := ⟨fun a b => ⟨a.x + b.x, a.y + b.y⟩⟩

instance : Sub Vec2 := ⟨fun a b => ⟨a.x - b.x, a.y - b.y⟩⟩

instance : Neg Vec2 := ⟨fun a => ⟨-a.x, -a.y⟩⟩

/-- Modelled from the spec: scaling a vector by a scalar (`vec * coord` in the engine). -/
def Vec2.smul (v : Vec2) (c : ℝ) : Vec2 := ⟨v.x * c, v.y * c⟩

/-- Modelled from the spec: Euclidean length (`vec2::len`). -/
noncomputable def Vec2.len (v : Vec2) : ℝ := Real.sqrt (v.x ^ 2 + v.y ^ 2)

/-- Modelled from the spec: rotation of a vector by an angle (`vec2::rotate`). -/
noncomputable def Vec2.rotate (v : Vec2) (angle : ℝ) : Vec2 :=
  ⟨v.x * Real.cos angle - v.y * Real.sin angle,
   v.x * Real.sin angle + v.y * Real.cos angle⟩

/-- Modelled from the spec: normalized direction, the zero vector when degenerate
(`vec2::normalize_or_zero`). -/
noncomputable def Vec2.normalize_or_zero (v : Vec2) : Vec2 :=
  if v.len = 0 then ⟨0, 0⟩ else v.smul (1 / v.len)

@[simp] theorem Vec2.add_x (a b : Vec2) : (a + b).x = a.x + b.x := rfl

@[simp] theorem Vec2.add_y (a b : Vec2) : (a + b).y = a.y + b.y := rfl

@[simp] theorem Vec2.sub_x (a b : Vec2) : (a - b).x = a.x - b.x := rfl

@[simp] theorem Vec2.sub_y (a b : Vec2) : (a - b).y = a.y - b.y := rfl

@[simp] theorem Vec2.smul_x (a : Vec2) (c : ℝ) : (a.smul c).x = a.x * c := rfl

@[simp] theorem Vec2.smul_y (a : Vec2) (c : ℝ) : (a.smul c).y = a.y * c := rfl

/-- Positions are 2D vectors (`Position` in the engine). -/
abbrev Position := Vec2

/-- Velocities are 2D vectors (`Velocity` in the engine). -/
abbrev Velocity := Vec2

/-- Scalar coordinate type (`Coord`, an `r32` in the engine, embedded as ℝ). -/
abbrev Coord := ℝ

/-- Time values (`Time`, an `r32` in the engine, embedded as ℝ). -/
abbrev Time := ℝ

/-- Health points (`Hp`, an `r32` in the engine, embedded as ℝ). -/
abbrev Hp := ℝ

/-- Entity identifiers (`Id` in the engine). -/
abbrev Id := ℕ

/-- Modelled from the spec: health of a unit.  The `change` operation is owned
externally; the spec states damage/heal change health by the given delta
(clamping rules owned externally), modelled here as plain addition. -/
structure Health where
  hp : Hp

/-- Modelled from the spec: apply a signed health change. -/
noncomputable def Health.change (h : Health) (delta : Hp) : Health := ⟨h.hp + delta⟩

/-- Modelled from the spec: an animation template; the heal particle animation is
built from an asset template with a scale and a duration. -/
structure Animation where
  template : ℕ
  scale : Vec2
  duration : Time

/-- Modelled from the spec: build an animation from an asset template with the given
scale and duration (`unit_template::to_animation`); the last argument is an unused
optional parameter. -/
def to_animation (template : ℕ) (scale : Vec2) (duration : Time)
    (_extra : Option ℕ) : Animation :=
  ⟨template, scale, duration⟩

/-- Modelled from the spec: animation playback state instantiated from a template
(`AnimationState::new` returns a pair whose first component is the initial state;
the second component is unused here). -/
structure AnimationState where
  animation : Animation

/-- Modelled from the spec: instantiate the initial playback state from a template. -/
def AnimationState.new (a : Animation) : AnimationState × PUnit.{1} := (⟨a⟩, PUnit.unit)

/-- Modelled from the spec: AI behavior tag attached to a spawned projectile. -/
structure ProjectileAI where
  tag : ℕ

/-- The damage-type tag (`DamageType`), carried but currently unused. -/
inductive DamageType where
  | Physical
  | Energy
  | Explosive

/-- Modelled from the spec: the weapon-anchor render variant of a unit
(`ExtraUnitRender::Tank` with hand/weapon/shoot offsets and an aim rotation). -/
inductive ExtraUnitRender where
  | Tank (hand_pos weapon_pos shoot_pos : Position) (rotation : ℝ)

/-- Modelled from the spec: an axis-aligned collider (`Collider::Aabb`). -/
inductive Collider where
  | Aabb (size : Vec2)

/-- Logical roles an effect's context resolves (`Who`). -/
inductive Who where
  | Caster
  | Target
deriving DecidableEq

/-- The `DamageEffect` payload: a damage-type tag and a magnitude. -/
structure DamageEffect where
  damage_type : DamageType
  value : Hp

/-- The `HealEffect` payload: a magnitude. -/
structure HealEffect where
  value : Hp

mutual

/-- The `Effect` tagged union: `Noop | Projectile | Damage | Heal | Dash`. -/
inductive Effect where
  | Noop
  | Projectile (e : ProjectileEffect)
  | Damage (e : DamageEffect)
  | Heal (e : HealEffect)
  | Dash (e : DashEffect)

/-- The `ProjectileEffect` payload: muzzle offset, AI tag, launch speed, deferred
`on_hit` effect and a shared animation template (shared ownership modelled by value). -/
inductive ProjectileEffect where
  | mk (offset : Position) (ai : ProjectileAI) (speed : Coord)
       (on_hit : Effect) (animation : Animation)

/-- The `DashEffect` payload: a speed, a duration and a deferred `on_contact` effect. -/
inductive DashEffect where
  | mk (speed : Coord) (duration : Time) (on_contact : Effect)

end

def ProjectileEffect.offset : ProjectileEffect → Position
  | .mk o _ _ _ _ => o

def ProjectileEffect.ai : ProjectileEffect → ProjectileAI
  | .mk _ a _ _ _ => a

def ProjectileEffect.speed : ProjectileEffect → Coord
  | .mk _ _ s _ _ => s

def ProjectileEffect.on_hit : ProjectileEffect → Effect
  | .mk _ _ _ e _ => e

def ProjectileEffect.animation : ProjectileEffect → Animation
  | .mk _ _ _ _ a => a

def DashEffect.speed : DashEffect → Coord
  | .mk s _ _ => s

def DashEffect.duration : DashEffect → Time
  | .mk _ d _ => d

def DashEffect.on_contact : DashEffect → Effect
  | .mk _ _ e => e

/-- The `Status::Charge` variant: remaining duration and a deferred contact effect. -/
inductive Status where
  | Charge (time : Time) (on_contact : Effect)

/-- Modelled from the spec: a live simulation unit — id, position, velocity,
health, horizontal flip flag, optional weapon-anchor render variant and a
status list. -/
structure Unit where
  id : Id
  position : Position
  velocity : Velocity
  health : Health
  flip_sprite : Bool
  extra_render : Option ExtraUnitRender
  statuses : List Status

/-- A spawned `Projectile` entity. -/
structure Projectile where
  id : Id
  animation_state : AnimationState
  ai : ProjectileAI
  lifetime : Time
  collider : Collider
  on_hit : Effect
  caster : Id
  target : Id
  position : Position
  velocity : Velocity

/-- A spawned, purely cosmetic `Particle` entity. -/
structure Particle where
  id : Id
  alive : Bool
  follow_unit : Id
  position : Position
  animation_state : AnimationState

/-- Modelled from the spec: monotonic unique id generator owned by the state. -/
structure IdGen where
  next_id : ℕ

/-- Modelled from the spec: allocate a fresh id (`IdGen::gen`). -/
def IdGen.gen (g : IdGen) : Id × IdGen := (g.next_id, ⟨g.next_id + 1⟩)

/-- Modelled from the spec: the mutable simulation state (the engine's
`Logic`/`Model` pair flattened): gravity, live units, projectile and particle
collections, the id generator and the heal-animation asset template key. -/
@[ext]
structure Logic where
  gravity : Vec2
  units : List Unit
  projectiles : List Projectile
  particles : List Particle
  id_gen : IdGen
  assets_effects_heal : ℕ

/-- The `EffectContext`: entity identifiers playing the Caster and Target roles. -/
structure EffectContext where
  caster : Id
  target : Id

/-- The entity id a role refers to in a context. -/
def EffectContext.getId (ctx : EffectContext) : Who → Id
  | .Caster => ctx.caster
  | .Target => ctx.target

/-- Modelled from the spec: soft lookup (`EffectContext::get`) — resolve a role to
a live unit, `none` if the referenced id no longer exists in the state.  The hard
lookups (`get_expect` / `get_mut_expect`) are this lookup with `none` treated as a
fatal invariant violation, modelled by propagating `none` out of the processor. -/
def EffectContext.get (ctx : EffectContext) (who : Who) (l : Logic) : Option Unit :=
  l.units.find? (fun u => u.id == ctx.getId who)

/-- Modelled from the spec: in-place mutation of the unit with the given id
(the engine's mutable unit access), as a map over the unit collection. -/
def Logic.updateUnit (l : Logic) (uid : Id) (f : Unit → Unit) : Logic :=
  { l with units := l.units.map (fun u => if u.id == uid then f u else u) }

/-- Remove the unit with the given id from the state (used to compare two states
that differ only in whether an entity exists). -/
def Logic.removeUnit (l : Logic) (uid : Id) : Logic :=
  { l with units := l.units.filter (fun u => u.id != uid) }

/-- The solver's `root` expression before the negativity check:
`s*s*s*s + 2*g*y*s*s - g*g*x*x`, the discriminant of the quadratic in `vx²`. -/
noncomputable def aimRoot (x y g s : ℝ) : ℝ :=
  s * s * s * s + 2 * g * y * s * s - g * g * x * x

/-- The solver's `mult` factor: `x * x / 2 / (x * x + y * y)`. -/
noncomputable def aimMult (x y : ℝ) : ℝ := x * x / 2 / (x * x + y * y)

/-- The solver's `term` summand: `g * y + s * s`. -/
noncomputable def aimTerm (y g s : ℝ) : ℝ := g * y + s * s

/-- The solver's first algebraic root of the quadratic in `vx²`:
`mult * (term + root.sqrt())`. -/
noncomputable def aimV1 (x y g s : ℝ) : ℝ :=
  aimMult x y * (aimTerm y g s + Real.sqrt (aimRoot x y g s))

/-- The solver's second algebraic root of the quadratic in `vx²`:
`mult * (term - root.sqrt())`. -/
noncomputable def aimV2 (x y g s : ℝ) : ℝ :=
  aimMult x y * (aimTerm y g s - Real.sqrt (aimRoot x y g s))

/-- The solver's candidate map: from a positive root `v` of the quadratic in
`vx²`, take the signed square root `vx = v.sqrt() * x.signum()`, the flight
time `t = x / vx` and `vy = (2*y - g*t*t) / (2*t)`.  `signum` is embedded as
`Real.sign`; the two differ only at `x = 0`, where both roots are zero and no
candidate survives the strict positivity filter. -/
noncomputable def aimCandidate (x y g : ℝ) (v : ℝ) : Velocity × Time :=
  let vx := Real.sqrt v * Real.sign x
  let t := x / vx
  let vy := (2 * y - g * t * t) / (2 * t)
  (⟨vx, vy⟩, t)

/-- The surviving candidates: `[v1, v2]` filtered to the strictly positive
roots, each mapped through `aimCandidate`. -/
noncomputable def aimCandidates (x y g s : ℝ) : List (Velocity × Time) :=
  ((if 0 < aimV1 x y g s then [aimV1 x y g s] else []) ++
   (if 0 < aimV2 x y g s then [aimV2 x y g s] else [])).map (aimCandidate x y g)

/-- `min_by_key` on the flight time: first minimal element of the list, `none`
when the list is empty. -/
noncomputable def minByTime : List (Velocity × Time) → Option (Velocity × Time)
  | [] => none
  | c :: cs => some (cs.foldl (fun a b => if b.2 < a.2 then b else a) c)

/-- The ballistic solver `aim_parabollically`: returns the possible launch
velocity and flight time landing at displacement `delta_pos` with speed
`speed` under gravity `gravity`, `none` when no solution exists. -/
noncomputable def aim_parabollically (delta_pos : Position) (gravity speed : Coord) :
    Option (Velocity × Time) :=
  let x := delta_pos.x
  let y := delta_pos.y
  let s := speed
  let g := gravity
  if aimRoot x y g s < 0 then
    none
  else
    minByTime (aimCandidates x y g s)

/-- The muzzle offset before mirroring: the weapon-anchor offsets rotated by the
aim rotation when the caster exposes the `Tank` render variant, the effect's
static offset otherwise. -/
noncomputable def muzzleOffset (caster : Unit) (e : ProjectileEffect) : Position :=
  match caster.extra_render with
  | some (.Tank hand_pos weapon_pos shoot_pos rotation) =>
      hand_pos + (weapon_pos + shoot_pos).rotate rotation
  | none => e.offset

/-- The muzzle world position: the muzzle offset, x-mirrored when the caster's
sprite is flipped, added to the caster's position. -/
noncomputable def muzzlePosition (caster : Unit) (e : ProjectileEffect) : Position :=
  let offset := muzzleOffset caster e
  let offset := if caster.flip_sprite then { offset with x := -offset.x } else offset
  offset + caster.position

/-- The first-pass straight-line flight-time estimate: zero when `speed` is
(approximately) zero, `delta.len() / speed` otherwise. -/
noncomputable def straightFlightTime (speed : Coord) (delta : Vec2) : Time :=
  if speed = 0 then 0 else delta.len / speed

/-- The first-pass extrapolated target position: the target's current position
projected forward by the straight-line time estimate along its velocity. -/
noncomputable def firstPassTargetPos (speed : Coord) (position : Position)
    (target : Unit) : Position :=
  target.position + target.velocity.smul (straightFlightTime speed (target.position - position))

/-- The two-pass predictive solve: solve at the first-pass extrapolated
position; on success, re-extrapolate with the returned flight time and
re-solve. -/
noncomputable def twoPassAim (position : Position) (target : Unit)
    (gravity speed : Coord) : Option (Velocity × Time) :=
  let options := aim_parabollically (firstPassTargetPos speed position target - position)
    gravity speed
  options.bind (fun p =>
    let target_pos := target.position + target.velocity.smul p.2
    aim_parabollically (target_pos - position) gravity speed)

/-- `ProjectileEffect::process`: hard-resolve the caster, soft-resolve the
target (absent target: graceful no-op), compute the muzzle position, run the
two-pass predictive ballistic solve with the straight-line fallback velocity,
and insert a fresh projectile. -/
noncomputable def ProjectileEffect.process (e : ProjectileEffect)
    (ctx : EffectContext) (l : Logic) : Option Logic :=
  match ctx.get .Caster l with
  | none => none
  | some caster =>
    match ctx.get .Target l with
    | none => some l
    | some target =>
      let position := muzzlePosition caster e
      let target_pos := firstPassTargetPos e.speed position target
      let options := twoPassAim position target l.gravity.y e.speed
      let velocity := match options with
        | some (v, _) => v
        | none => (target_pos - position).normalize_or_zero.smul e.speed
      let pg := l.id_gen.gen
      some { l with
        id_gen := pg.2,
        projectiles := l.projectiles ++ [{
          id := pg.1,
          animation_state := (AnimationState.new e.animation).1,
          ai := e.ai,
          lifetime := 10,
          collider := Collider.Aabb ⟨1, 1⟩,
          on_hit := e.on_hit,
          caster := ctx.caster,
          target := ctx.target,
          position := position,
          velocity := velocity }] }

/-- `DamageEffect::process`: hard-resolve the target and reduce its health by
the effect's magnitude. -/
noncomputable def DamageEffect.process (e : DamageEffect) (ctx : EffectContext) (l : Logic) :
    Option Logic :=
  match ctx.get .Target l with
  | none => none
  | some _ =>
    some (l.updateUnit (ctx.getId .Target)
      (fun u => { u with health := u.health.change (-e.value) }))

/-- `HealEffect::process`: hard-resolve the target, raise its health by the
magnitude and insert a fresh cosmetic particle at the target's position with
the heal animation at scale `(2, 2)` and duration one. -/
noncomputable def HealEffect.process (e : HealEffect) (ctx : EffectContext) (l : Logic) :
    Option Logic :=
  match ctx.get .Target l with
  | none => none
  | some target =>
    let l2 := l.updateUnit (ctx.getId .Target)
      (fun u => { u with health := u.health.change e.value })
    let target_position := target.position
    let animation := to_animation l2.assets_effects_heal ⟨2, 2⟩ 1 none
    let pg := l2.id_gen.gen
    some { l2 with
      id_gen := pg.2,
      particles := l2.particles ++ [{
        id := pg.1,
        alive := true,
        follow_unit := ctx.target,
        position := target_position,
        animation_state := (AnimationState.new animation).1 }] }

/-- Modelled from the spec: the engine's float `signum` (`Coord::signum` on
`r32`), which returns `-1` for negative inputs and `+1` otherwise — float
`signum` never returns zero, and `+0.0` maps to `+1`. -/
noncomputable def signum (x : ℝ) : ℝ := if x < 0 then -1 else 1

/-- `DashEffect::process`: soft-resolve the target for direction, hard-resolve
the caster, set its velocity to the horizontal dash velocity and append a
`Charge` status. -/
noncomputable def DashEffect.process (e : DashEffect) (ctx : EffectContext)
    (l : Logic) : Option Logic :=
  let target_pos := (ctx.get .Target l).map (fun u => u.position)
  match ctx.get .Caster l with
  | none => none
  | some caster =>
    let target_dir := match target_pos with
      | some pos => signum (pos.x - caster.position.x)
      | none => if caster.flip_sprite then -1 else 1
    let target_velocity := Vec2.smul ⟨target_dir, 0⟩ e.speed
    some (l.updateUnit (ctx.getId .Caster) (fun u =>
      { u with
        velocity := target_velocity,
        statuses := u.statuses ++ [Status.Charge e.duration e.on_contact] }))

/-- The effect dispatcher `Effect::process`: route to the matching variant's
processor; `Noop` is a no-op. -/
noncomputable def Effect.process (eff : Effect) (ctx : EffectContext) (l : Logic) :
    Option Logic :=
  match eff with
  | .Noop => some l
  | .Projectile e => e.process ctx l
  | .Damage e => e.process ctx l
  | .Heal e => e.process ctx l
  | .Dash e => e.process ctx l

/-! ## Solver lemmas -/

/-- Unfolding lemma for the ballistic solver. -/
theorem aim_parabollically_eq (delta_pos : Position) (g s : ℝ) :
    aim_parabollically delta_pos g s =
      if aimRoot delta_pos.x delta_pos.y g s < 0 then none
      else minByTime (aimCandidates delta_pos.x delta_pos.y g s) := rfl

/-- The running minimum of the `min_by_key` fold is an element of the list. -/
theorem foldlMin_mem (cs : List (Velocity × Time)) (a : Velocity × Time) :
    cs.foldl (fun a b => if b.2 < a.2 then b else a) a ∈ a :: cs := by
  induction cs generalizing a with
  | nil => simp
  | cons b bs ih =>
    simp only [List.foldl_cons]
    have h := ih (if b.2 < a.2 then b else a)
    rcases List.mem_cons.1 h with h | h
    · rw [h]
      split_ifs
      · exact List.mem_cons_of_mem _ (List.mem_cons_self _ _)
      · exact List.mem_cons_self _ _
    · exact List.mem_cons_of_mem _ (List.mem_cons_of_mem _ h)

/-- The running minimum of the `min_by_key` fold has minimal flight time. -/
theorem foldlMin_le_all (cs : List (Velocity × Time)) (a : Velocity × Time) :
    ∀ c ∈ a :: cs, (cs.foldl (fun a b => if b.2 < a.2 then b else a) a).2 ≤ c.2 := by
  induction cs generalizing a with
  | nil =>
    intro c hc
    simp only [List.mem_singleton] at hc
    subst hc
    simp
  | cons b bs ih =>
    intro c hc
    simp only [List.foldl_cons]
    have hpa : (if b.2 < a.2 then b else a).2 ≤ a.2 := by
      split_ifs with h
      · exact le_of_lt h
      · exact le_refl _
    have hpb : (if b.2 < a.2 then b else a).2 ≤ b.2 := by
      split_ifs with h
      · exact le_refl _
      · exact le_of_not_lt h
    have hres := ih (if b.2 < a.2 then b else a) (if b.2 < a.2 then b else a)
      (List.mem_cons_self _ _)
    rcases List.mem_cons.1 hc with h | h
    · subst h
      exact hres.trans hpa
    · rcases List.mem_cons.1 h with h | h
      · subst h
        exact hres.trans hpb
      · exact ih _ c (List.mem_cons_of_mem _ h)

/-- A `minByTime` result is a member of the candidate list. -/
theorem minByTime_mem {l : List (Velocity × Time)} {c : Velocity × Time}
    (h : minByTime l = some c) : c ∈ l := by
  cases l with
  | nil => simp [minByTime] at h
  | cons a cs =>
    simp only [minByTime, Option.some.injEq] at h
    subst h
    exact foldlMin_mem cs a

/-- A `minByTime` result has minimal flight time among the candidates. -/
theorem minByTime_le {l : List (Velocity × Time)} {c : Velocity × Time}
    (h : minByTime l = some c) : ∀ d ∈ l, c.2 ≤ d.2 := by
  cases l with
  | nil => simp [minByTime] at h
  | cons a cs =>
    simp only [minByTime, Option.some.injEq] at h
    subst h
    exact foldlMin_le_all cs a

/-- With `x = 0` both algebraic roots vanish, so the candidate list is empty. -/
theorem aimCandidates_of_x_zero (y g s : ℝ) : aimCandidates 0 y g s = [] := by
  simp [aimCandidates, aimV1, aimV2, aimMult]

/-- Every member of the candidate list comes from a strictly positive root. -/
theorem aimCandidates_mem {x y g s : ℝ} {c : Velocity × Time}
    (h : c ∈ aimCandidates x y g s) :
    ∃ vr, 0 < vr ∧ c = aimCandidate x y g vr := by
  unfold aimCandidates at h
  rw [List.mem_map] at h
  obtain ⟨vr, hvr, hc⟩ := h
  refine ⟨vr, ?_, hc.symm⟩
  rcases List.mem_append.1 hvr with h | h
  · by_cases h1 : 0 < aimV1 x y g s
    · rw [if_pos h1] at h
      simp only [List.mem_singleton] at h
      subst h
      exact h1
    · rw [if_neg h1] at h
      simp at h
  · by_cases h2 : 0 < aimV2 x y g s
    · rw [if_pos h2] at h
      simp only [List.mem_singleton] at h
      subst h
      exact h2
    · rw [if_neg h2] at h
      simp at h

/-- A candidate built from a strictly positive root at a non-zero horizontal
displacement satisfies both ballistic equations. -/
theorem aimCandidate_solves {x y g vr : ℝ} (hvr : 0 < vr) (hx : x ≠ 0) :
    (aimCandidate x y g vr).1.x * (aimCandidate x y g vr).2 = x ∧
    (aimCandidate x y g vr).1.y * (aimCandidate x y g vr).2 +
      g * (aimCandidate x y g vr).2 ^ 2 / 2 = y := by
  have hs : Real.sqrt vr ≠ 0 := ne_of_gt (Real.sqrt_pos.mpr hvr)
  have hsign : Real.sign x ≠ 0 := fun h => hx (Real.sign_eq_zero_iff.mp h)
  have hvx : Real.sqrt vr * Real.sign x ≠ 0 := mul_ne_zero hs hsign
  have ht : x / (Real.sqrt vr * Real.sign x) ≠ 0 := div_ne_zero hx hvx
  unfold aimCandidate
  constructor
  · field_simp
  · field_simp
    ring

/-- C1: whenever `aim_parabollically` returns `some ((vx, vy), t)` for a
displacement `(dx, dy)`, gravity `g` and speed `s`, the result satisfies the
ballistic system `vx * t = dx` and `vy * t + g * t² / 2 = dy` exactly over the
embedded real arithmetic. -/
theorem aim_parabollically_solves_system (delta_pos : Position) (gravity speed : Coord)
    (v : Velocity) (t : Time)
    (h : aim_parabollically delta_pos gravity speed = some (v, t)) :
    v.x * t = delta_pos.x ∧ v.y * t + gravity * t ^ 2 / 2 = delta_pos.y := by
  rw [aim_parabollically_eq] at h
  by_cases hlt : aimRoot delta_pos.x delta_pos.y gravity speed < 0
  · rw [if_pos hlt] at h
    exact absurd h (by simp)
  · rw [if_neg hlt] at h
    have hmem := minByTime_mem h
    obtain ⟨vr, hvr, hc⟩ := aimCandidates_mem hmem
    have hx : delta_pos.x ≠ 0 := by
      intro h0
      rw [h0, aimCandidates_of_x_zero] at hmem
      simp at hmem
    have := aimCandidate_solves (x := delta_pos.x) (y := delta_pos.y)
      (g := gravity) hvr hx
    rw [← hc] at this
    exact this

/-- Shared evaluation fact: the discriminant at `delta = (8, 0)`, `g = -3`,
`s = 5` equals `49`. -/
theorem aimRoot_eval_ex : aimRoot 8 0 (-3) 5 = 49 := by
  unfold aimRoot
  norm_num

/-- Shared evaluation fact: the first algebraic root at the example input. -/
theorem aimV1_eval_ex : aimV1 8 0 (-3) 5 = 16 := by
  unfold aimV1 aimMult aimTerm
  rw [aimRoot_eval_ex, show (49 : ℝ) = 7 ^ 2 by norm_num,
    Real.sqrt_sq (by norm_num : (0 : ℝ) ≤ 7)]
  norm_num

/-- Shared evaluation fact: the second algebraic root at the example input. -/
theorem aimV2_eval_ex : aimV2 8 0 (-3) 5 = 9 := by
  unfold aimV2 aimMult aimTerm
  rw [aimRoot_eval_ex, show (49 : ℝ) = 7 ^ 2 by norm_num,
    Real.sqrt_sq (by norm_num : (0 : ℝ) ≤ 7)]
  norm_num

/-- Shared evaluation fact: the candidate of the first root at the example input. -/
theorem aimCandidate_eval_ex1 : aimCandidate 8 0 (-3) 16 = (⟨4, 3⟩, 2) := by
  unfold aimCandidate
  rw [show (16 : ℝ) = 4 ^ 2 by norm_num, Real.sqrt_sq (by norm_num : (0 : ℝ) ≤ 4),
    Real.sign_of_pos (by norm_num : (0 : ℝ) < 8)]
  norm_num [Prod.ext_iff, Vec2.ext_iff]

/-- Shared evaluation fact: the candidate of the second root at the example input. -/
theorem aimCandidate_eval_ex2 : aimCandidate 8 0 (-3) 9 = (⟨3, 4⟩, 8 / 3) := by
  unfold aimCandidate
  rw [show (9 : ℝ) = 3 ^ 2 by norm_num, Real.sqrt_sq (by norm_num : (0 : ℝ) ≤ 3),
    Real.sign_of_pos (by norm_num : (0 : ℝ) < 8)]
  norm_num [Prod.ext_iff, Vec2.ext_iff]

/-- Shared evaluation fact: the solver's output on the example input. -/
theorem aim_eval_ex : aim_parabollically ⟨8, 0⟩ (-3) 5 = some (⟨4, 3⟩, 2) := by
  rw [aim_parabollically_eq]
  rw [if_neg (by rw [show ((⟨8, 0⟩ : Position)).x = 8 from rfl,
    show ((⟨8, 0⟩ : Position)).y = 0 from rfl, aimRoot_eval_ex]; norm_num)]
  rw [show ((⟨8, 0⟩ : Position)).x = 8 from rfl, show ((⟨8, 0⟩ : Position)).y = 0 from rfl]
  unfold aimCandidates
  rw [aimV1_eval_ex, aimV2_eval_ex, if_pos (by norm_num : (0 : ℝ) < 16),
    if_pos (by norm_num : (0 : ℝ) < 9)]
  simp only [List.singleton_append, List.map_cons, List.map_nil,
    aimCandidate_eval_ex1, aimCandidate_eval_ex2, minByTime, List.foldl_cons,
    List.foldl_nil]
  rw [if_neg (by norm_num : ¬ (8 / 3 : ℝ) < 2)]

/-- Witness for C1: at `delta = (8, 0)`, `g = -3`, `s = 5` the solver returns
velocity `(4, 3)` with flight time `2`, and the ballistic system holds there. -/
theorem aim_parabollically_solves_system_witness :
    (⟨4, 3⟩ : Velocity).x * 2 = (⟨8, 0⟩ : Position).x ∧
    (⟨4, 3⟩ : Velocity).y * 2 + (-3) * 2 ^ 2 / 2 = (⟨8, 0⟩ : Position).y :=
  aim_parabollically_solves_system ⟨8, 0⟩ (-3) 5 ⟨4, 3⟩ 2 aim_eval_ex

/-- C2: if the discriminant `s⁴ + 2·g·dy·s² − g²·dx²` is strictly negative,
the solver returns `none`. -/
theorem aim_parabollically_neg_disc_none (delta_pos : Position) (gravity speed : Coord)
    (h : speed ^ 4 + 2 * gravity * delta_pos.y * speed ^ 2
      - gravity ^ 2 * delta_pos.x ^ 2 < 0) :
    aim_parabollically delta_pos gravity speed = none := by
  have hroot : aimRoot delta_pos.x delta_pos.y gravity speed
      = speed ^ 4 + 2 * gravity * delta_pos.y * speed ^ 2
        - gravity ^ 2 * delta_pos.x ^ 2 := by
    unfold aimRoot
    ring
  rw [aim_parabollically_eq, if_pos (by rw [hroot]; exact h)]

/-- Witness for C2: at `delta = (100, 0)`, `g = -1`, `s = 1` the discriminant
is `1 - 10000 < 0` and the solver returns `none`. -/
theorem aim_parabollically_neg_disc_none_witness :
    aim_parabollically ⟨100, 0⟩ (-1) 1 = none :=
  aim_parabollically_neg_disc_none ⟨100, 0⟩ (-1) 1 (by norm_num)

/-- C3: when the discriminant is non-negative and both algebraic roots of the
quadratic in `vx²` are strictly positive, the solver returns one of the two
candidates, and its flight time is minimal among the two. -/
theorem aim_parabollically_min_time (delta_pos : Position) (gravity speed : Coord)
    (hroot : 0 ≤ aimRoot delta_pos.x delta_pos.y gravity speed)
    (h1 : 0 < aimV1 delta_pos.x delta_pos.y gravity speed)
    (h2 : 0 < aimV2 delta_pos.x delta_pos.y gravity speed) :
    ∃ c, aim_parabollically delta_pos gravity speed = some c ∧
      (c = aimCandidate delta_pos.x delta_pos.y gravity
          (aimV1 delta_pos.x delta_pos.y gravity speed) ∨
       c = aimCandidate delta_pos.x delta_pos.y gravity
          (aimV2 delta_pos.x delta_pos.y gravity speed)) ∧
      c.2 ≤ (aimCandidate delta_pos.x delta_pos.y gravity
          (aimV1 delta_pos.x delta_pos.y gravity speed)).2 ∧
      c.2 ≤ (aimCandidate delta_pos.x delta_pos.y gravity
          (aimV2 delta_pos.x delta_pos.y gravity speed)).2 := by
  rw [aim_parabollically_eq, if_neg (not_lt.mpr hroot)]
  unfold aimCandidates
  rw [if_pos h1, if_pos h2]
  set c1 := aimCandidate delta_pos.x delta_pos.y gravity
    (aimV1 delta_pos.x delta_pos.y gravity speed) with hc1
  set c2 := aimCandidate delta_pos.x delta_pos.y gravity
    (aimV2 delta_pos.x delta_pos.y gravity speed) with hc2
  simp only [List.singleton_append, List.map_cons, List.map_nil, minByTime,
    List.foldl_cons, List.foldl_nil]
  by_cases hlt : c2.2 < c1.2
  · exact ⟨c2, by rw [if_pos hlt], Or.inr rfl, le_of_lt hlt, le_refl _⟩
  · exact ⟨c1, by rw [if_neg hlt], Or.inl rfl, le_refl _, le_of_not_lt hlt⟩

/-- Witness for C3: at `delta = (8, 0)`, `g = -3`, `s = 5` the roots are
`16` and `9`, both positive, and the theorem applies. -/
theorem aim_parabollically_min_time_witness :
    ∃ c, aim_parabollically ⟨8, 0⟩ (-3) 5 = some c ∧
      (c = aimCandidate (⟨8, 0⟩ : Position).x (⟨8, 0⟩ : Position).y (-3)
          (aimV1 (⟨8, 0⟩ : Position).x (⟨8, 0⟩ : Position).y (-3) 5) ∨
       c = aimCandidate (⟨8, 0⟩ : Position).x (⟨8, 0⟩ : Position).y (-3)
          (aimV2 (⟨8, 0⟩ : Position).x (⟨8, 0⟩ : Position).y (-3) 5)) ∧
      c.2 ≤ (aimCandidate (⟨8, 0⟩ : Position).x (⟨8, 0⟩ : Position).y (-3)
          (aimV1 (⟨8, 0⟩ : Position).x (⟨8, 0⟩ : Position).y (-3) 5)).2 ∧
      c.2 ≤ (aimCandidate (⟨8, 0⟩ : Position).x (⟨8, 0⟩ : Position).y (-3)
          (aimV2 (⟨8, 0⟩ : Position).x (⟨8, 0⟩ : Position).y (-3) 5)).2 :=
  aim_parabollically_min_time ⟨8, 0⟩ (-3) 5
    (by rw [show ((⟨8, 0⟩ : Position)).x = 8 from rfl,
      show ((⟨8, 0⟩ : Position)).y = 0 from rfl, aimRoot_eval_ex]; norm_num)
    (by rw [show ((⟨8, 0⟩ : Position)).x = 8 from rfl,
      show ((⟨8, 0⟩ : Position)).y = 0 from rfl, aimV1_eval_ex]; norm_num)
    (by rw [show ((⟨8, 0⟩ : Position)).x = 8 from rfl,
      show ((⟨8, 0⟩ : Position)).y = 0 from rfl, aimV2_eval_ex]; norm_num)

/-! ## Processor claims -/

/-- C5: processing a Projectile effect whose Target role does not resolve is a
graceful no-op: the state is returned unchanged (no projectile inserted, no
mutation, no failure). -/
theorem projectile_no_target_noop (e : ProjectileEffect) (ctx : EffectContext)
    (l : Logic) (caster : Unit)
    (hc : ctx.get .Caster l = some caster)
    (ht : ctx.get .Target l = none) :
    Effect.process (.Projectile e) ctx l = some l := by
  unfold Effect.process ProjectileEffect.process
  rw [hc, ht]

/-- C4: processing a Projectile effect with resolvable Caster and Target always
inserts exactly one projectile, and when the two-pass ballistic solve yields no
result its velocity is the straight-line fallback: the normalized direction
from the muzzle to the first-pass extrapolated target position scaled by the
effect's speed. -/
theorem projectile_fallback_velocity (e : ProjectileEffect) (ctx : EffectContext)
    (l : Logic) (caster target : Unit)
    (hc : ctx.get .Caster l = some caster)
    (ht : ctx.get .Target l = some target) :
    ∃ l2 p, Effect.process (.Projectile e) ctx l = some l2 ∧
      l2.projectiles = l.projectiles ++ [p] ∧
      (twoPassAim (muzzlePosition caster e) target l.gravity.y e.speed = none →
        p.velocity = ((firstPassTargetPos e.speed (muzzlePosition caster e) target
          - muzzlePosition caster e).normalize_or_zero).smul e.speed) := by
  unfold Effect.process ProjectileEffect.process
  rw [hc, ht]
  refine ⟨_, _, rfl, rfl, ?_⟩
  intro hnone
  simp only [hnone]

/-- C9: the inserted projectile's position is the muzzle world position: the
hand/weapon/shoot offsets rotated by the aim rotation when the caster exposes
the weapon-anchor render variant, the effect's static offset otherwise; the
x-offset is mirrored when the caster is flipped, and the caster's position is
added. -/
theorem projectile_muzzle_position (e : ProjectileEffect) (ctx : EffectContext)
    (l : Logic) (caster target : Unit)
    (hc : ctx.get .Caster l = some caster)
    (ht : ctx.get .Target l = some target) :
    ∃ l2 p, Effect.process (.Projectile e) ctx l = some l2 ∧
      l2.projectiles = l.projectiles ++ [p] ∧
      p.position =
        (let off : Position := match caster.extra_render with
          | some (.Tank hand_pos weapon_pos shoot_pos rotation) =>
              hand_pos + (weapon_pos + shoot_pos).rotate rotation
          | none => e.offset
        (if caster.flip_sprite then ⟨-off.x, off.y⟩ else off) + caster.position) := by
  unfold Effect.process ProjectileEffect.process
  rw [hc, ht]
  exact ⟨_, _, rfl, rfl, rfl⟩

/-- C6: processing a Damage effect with a resolvable target lowers exactly the
target's health by the magnitude and leaves every other unit and every other
component of the state unchanged. -/
theorem damage_process_health (e : DamageEffect) (ctx : EffectContext) (l : Logic)
    (target : Unit) (ht : ctx.get .Target l = some target) :
    Effect.process (.Damage e) ctx l = some
      { l with units := l.units.map (fun u =>
          if u.id == ctx.target then { u with health := ⟨u.health.hp - e.value⟩ }
          else u) } := by
  unfold Effect.process DamageEffect.process
  rw [ht]
  simp only [Logic.updateUnit, EffectContext.getId, Health.change, sub_eq_add_neg]

/-- C7: processing a Heal effect with a resolvable target raises exactly the
target's health by the magnitude and inserts exactly one particle: fresh id,
alive, following the target, at the target's position, with the heal animation
built at scale `(2, 2)` and duration one; nothing else changes. -/
theorem heal_process_health_particle (e : HealEffect) (ctx : EffectContext)
    (l : Logic) (target : Unit) (ht : ctx.get .Target l = some target) :
    Effect.process (.Heal e) ctx l = some
      { l with
        units := l.units.map (fun u =>
          if u.id == ctx.target then { u with health := ⟨u.health.hp + e.value⟩ }
          else u),
        particles := l.particles ++ [{
          id := l.id_gen.next_id,
          alive := true,
          follow_unit := ctx.target,
          position := target.position,
          animation_state := ⟨⟨l.assets_effects_heal, ⟨2, 2⟩, 1⟩⟩ }],
        id_gen := ⟨l.id_gen.next_id + 1⟩ } := by
  unfold Effect.process HealEffect.process
  rw [ht]
  rfl

/-- C8 (amended): processing a Dash effect with a resolvable caster sets the
caster's velocity to `(direction * speed, 0)` — `direction` the float signum
of `target.x - caster.x` (`-1` when negative, `+1` otherwise, including zero)
when the target resolves, else `-1`/`+1` by the flip flag — and appends one
`Charge` status with the dash duration and the embedded contact effect;
nothing else changes. -/
theorem dash_process_velocity_status (e : DashEffect) (ctx : EffectContext)
    (l : Logic) (caster : Unit) (hc : ctx.get .Caster l = some caster) :
    Effect.process (.Dash e) ctx l = some
      { l with units := l.units.map (fun u =>
          if u.id == ctx.caster then
            { u with
              velocity := ⟨(match (ctx.get .Target l).map (fun t => t.position) with
                | some pos => signum (pos.x - caster.position.x)
                | none => if caster.flip_sprite then -1 else 1) * e.speed, 0⟩,
              statuses := u.statuses ++ [Status.Charge e.duration e.on_contact] }
          else u) } := by
  unfold Effect.process DashEffect.process
  rw [hc]
  simp only [Logic.updateUnit, EffectContext.getId, Vec2.smul, zero_mul]

/-! ## Caster-independence of Damage and Heal -/

/-- Looking up one id is unaffected by removing the units of a different id. -/
theorem find_filter_ne {us : List Unit} {tid cid : Id} (hne : cid ≠ tid) :
    (us.filter (fun u => u.id != cid)).find? (fun u => u.id == tid) =
      us.find? (fun u => u.id == tid) := by
  induction us with
  | nil => simp
  | cons u us ih =>
    rcases eq_or_ne u.id cid with hcu | hcu
    · have h2 : (u.id == tid) = false := by
        simp only [beq_eq_false_iff_ne, ne_eq]
        intro h
        rw [hcu] at h
        exact hne h
      have h1 : (u.id != cid) = false := by simp [hcu]
      simp [List.filter_cons, List.find?_cons, h1, h2, ih]
    · have h1 : (u.id != cid) = true := by simp [hcu]
      rcases eq_or_ne u.id tid with h2 | h2
      · have h2b : (u.id == tid) = true := by simp [h2]
        simp [List.filter_cons, List.find?_cons, h1, h2b]
      · have h2b : (u.id == tid) = false := by simp [h2]
        simp [List.filter_cons, List.find?_cons, h1, h2b, ih]

/-- An id-preserving per-unit update commutes with removing the units of any
fixed id. -/
theorem map_ite_filter_comm (us : List Unit) (tid cid : Id) (f : Unit → Unit)
    (hf : ∀ u, (f u).id = u.id) :
    (us.filter (fun u => u.id != cid)).map
        (fun u => if u.id == tid then f u else u) =
      (us.map (fun u => if u.id == tid then f u else u)).filter
        (fun u => u.id != cid) := by
  induction us with
  | nil => simp
  | cons u us ih =>
    have hgid : (if u.id == tid then f u else u).id = u.id := by
      split_ifs with h
      · exact hf u
      · rfl
    rcases eq_or_ne u.id cid with hcu | hcu
    · subst hcu
      simpa [List.filter_cons, hgid, apply_ite Unit.id, hf] using ih
    · simpa [List.filter_cons, hgid, apply_ite Unit.id, hf, hcu] using ih

/-- An id-preserving targeted update on the state commutes with removing the
units of any fixed id. -/
theorem updateUnit_removeUnit_comm (l : Logic) (tid cid : Id) (f : Unit → Unit)
    (hf : ∀ u, (f u).id = u.id) :
    (l.removeUnit cid).updateUnit tid f = (l.updateUnit tid f).removeUnit cid :=
  Logic.ext rfl (map_ite_filter_comm l.units tid cid f hf) rfl rfl rfl rfl

/-- C10: Damage and Heal processing never reads the Caster role: with the
caster id distinct from the target id and the target resolvable, processing on
the state with the caster entity removed yields exactly the processed state
with the caster entity removed. -/
theorem damage_heal_ignore_caster (d : DamageEffect) (he : HealEffect)
    (ctx : EffectContext) (l : Logic) (target : Unit)
    (hne : ctx.caster ≠ ctx.target)
    (ht : ctx.get .Target l = some target) :
    Effect.process (.Damage d) ctx (l.removeUnit ctx.caster) =
      (Effect.process (.Damage d) ctx l).map (fun s => s.removeUnit ctx.caster) ∧
    Effect.process (.Heal he) ctx (l.removeUnit ctx.caster) =
      (Effect.process (.Heal he) ctx l).map (fun s => s.removeUnit ctx.caster) := by
  have ht2 : ctx.get .Target (l.removeUnit ctx.caster) = some target := by
    show (l.units.filter (fun u => u.id != ctx.caster)).find?
      (fun u => u.id == ctx.getId Who.Target) = some target
    rw [@find_filter_ne l.units (ctx.getId Who.Target) ctx.caster hne]
    exact ht
  constructor
  · unfold Effect.process DamageEffect.process
    rw [ht, ht2]
    exact congrArg some (updateUnit_removeUnit_comm l (ctx.getId .Target) ctx.caster
      (fun u => { u with health := u.health.change (-d.value) }) (fun u => rfl))
  · unfold Effect.process HealEffect.process
    rw [ht, ht2]
    exact congrArg some (Logic.ext rfl
      (map_ite_filter_comm l.units (ctx.getId .Target) ctx.caster
        (fun u => { u with health := u.health.change he.value }) (fun u => rfl))
      rfl rfl rfl rfl)

/-! ## Concrete example states for the witnesses -/

/-- Example caster unit. -/
noncomputable def exCaster : Unit :=
  { id := 1, position := ⟨0, 0⟩, velocity := ⟨0, 0⟩, health := ⟨10⟩,
    flip_sprite := false, extra_render := none, statuses := [] }

/-- Example target unit. -/
noncomputable def exTarget : Unit :=
  { id := 2, position := ⟨100, 0⟩, velocity := ⟨0, 0⟩, health := ⟨10⟩,
    flip_sprite := false, extra_render := none, statuses := [] }

/-- Example state holding the caster and the target. -/
noncomputable def exLogic : Logic :=
  { gravity := ⟨0, -1⟩, units := [exCaster, exTarget], projectiles := [],
    particles := [], id_gen := ⟨3⟩, assets_effects_heal := 7 }

/-- Example state where the target id does not resolve. -/
noncomputable def exLogicNoTarget : Logic := { exLogic with units := [exCaster] }

/-- Example context: caster id 1, target id 2. -/
def exCtx : EffectContext := ⟨1, 2⟩

/-- Example projectile effect with speed 1 and zero static offset. -/
noncomputable def exProjEffect : ProjectileEffect :=
  .mk ⟨0, 0⟩ ⟨0⟩ 1 .Noop ⟨5, ⟨1, 1⟩, 1⟩

/-- Example caster exposing the weapon-anchor render variant. -/
noncomputable def exTankCaster : Unit :=
  { exCaster with
    extra_render := some (.Tank ⟨1, 0⟩ ⟨2, 0⟩ ⟨3, 0⟩ 0), flip_sprite := true }

/-- Example state holding the weapon-anchor caster and the target. -/
noncomputable def exLogicTank : Logic := { exLogic with units := [exTankCaster, exTarget] }

/-- Example dash effect. -/
noncomputable def exDashEffect : DashEffect := .mk 6 2 .Noop

/-- At the example input the two-pass ballistic solve yields no result: the
target sits 100 units away and the projectile speed is only 1. -/
theorem exTwoPass_none :
    twoPassAim (muzzlePosition exCaster exProjEffect) exTarget exLogic.gravity.y
      exProjEffect.speed = none := by
  have hmp : muzzlePosition exCaster exProjEffect = ⟨0, 0⟩ := by
    simp [muzzlePosition, muzzleOffset, exCaster, exProjEffect,
      ProjectileEffect.offset, Vec2.ext_iff]
  have hfp : firstPassTargetPos exProjEffect.speed
        (muzzlePosition exCaster exProjEffect) exTarget
      - muzzlePosition exCaster exProjEffect = ⟨100, 0⟩ := by
    rw [hmp]
    simp [firstPassTargetPos, exTarget, Vec2.smul, Vec2.ext_iff]
  unfold twoPassAim
  rw [hfp, show exLogic.gravity.y = (-1 : ℝ) from rfl,
    show exProjEffect.speed = (1 : ℝ) from rfl,
    aim_parabollically_neg_disc_none ⟨100, 0⟩ (-1) 1 (by norm_num)]
  rfl

/-- Witness for C4: on the example state the two-pass solve fails and the
spawned projectile gets the straight-line fallback velocity. -/
theorem projectile_fallback_velocity_witness :
    twoPassAim (muzzlePosition exCaster exProjEffect) exTarget exLogic.gravity.y
      exProjEffect.speed = none ∧
    (∃ l2 p, Effect.process (.Projectile exProjEffect) exCtx exLogic = some l2 ∧
      l2.projectiles = exLogic.projectiles ++ [p] ∧
      (twoPassAim (muzzlePosition exCaster exProjEffect) exTarget exLogic.gravity.y
          exProjEffect.speed = none →
        p.velocity = ((firstPassTargetPos exProjEffect.speed
            (muzzlePosition exCaster exProjEffect) exTarget
          - muzzlePosition exCaster exProjEffect).normalize_or_zero).smul
            exProjEffect.speed)) :=
  ⟨exTwoPass_none,
    projectile_fallback_velocity exProjEffect exCtx exLogic exCaster exTarget rfl rfl⟩

/-- Witness for C5: on the example state without the target id, processing the
projectile effect returns the state unchanged. -/
theorem projectile_no_target_noop_witness :
    Effect.process (.Projectile exProjEffect) exCtx exLogicNoTarget =
      some exLogicNoTarget :=
  projectile_no_target_noop exProjEffect exCtx exLogicNoTarget exCaster rfl rfl

/-- Witness for C9: on the example state with the weapon-anchor caster, the
spawned projectile's position is the rotated, mirrored anchor offset plus the
caster position. -/
theorem projectile_muzzle_position_witness :
    ∃ l2 p, Effect.process (.Projectile exProjEffect) exCtx exLogicTank = some l2 ∧
      l2.projectiles = exLogicTank.projectiles ++ [p] ∧
      p.position =
        (let off : Position := match exTankCaster.extra_render with
          | some (.Tank hand_pos weapon_pos shoot_pos rotation) =>
              hand_pos + (weapon_pos + shoot_pos).rotate rotation
          | none => exProjEffect.offset
        (if exTankCaster.flip_sprite then ⟨-off.x, off.y⟩ else off)
          + exTankCaster.position) :=
  projectile_muzzle_position exProjEffect exCtx exLogicTank exTankCaster exTarget rfl rfl

/-- Witness for C6: damaging the example target by 3 lowers exactly its health
by 3 and nothing else. -/
theorem damage_process_health_witness :
    Effect.process (.Damage ⟨.Physical, 3⟩) exCtx exLogic = some
      { exLogic with units := exLogic.units.map (fun u =>
          if u.id == exCtx.target then { u with health := ⟨u.health.hp - (3 : ℝ)⟩ }
          else u) } :=
  damage_process_health ⟨.Physical, 3⟩ exCtx exLogic exTarget rfl

/-- Witness for C7: healing the example target by 4 raises exactly its health
by 4 and inserts exactly one particle at the target's position with the heal
animation at scale `(2, 2)` and duration one. -/
theorem heal_process_health_particle_witness :
    Effect.process (.Heal ⟨4⟩) exCtx exLogic = some
      { exLogic with
        units := exLogic.units.map (fun u =>
          if u.id == exCtx.target then { u with health := ⟨u.health.hp + (4 : ℝ)⟩ }
          else u),
        particles := exLogic.particles ++ [{
          id := exLogic.id_gen.next_id,
          alive := true,
          follow_unit := exCtx.target,
          position := exTarget.position,
          animation_state := ⟨⟨exLogic.assets_effects_heal, ⟨2, 2⟩, 1⟩⟩ }],
        id_gen := ⟨exLogic.id_gen.next_id + 1⟩ } :=
  heal_process_health_particle ⟨4⟩ exCtx exLogic exTarget rfl

/-- Witness for C8: dashing with the example caster sets its velocity to the
dash velocity and appends the Charge status. -/
theorem dash_process_velocity_status_witness :
    Effect.process (.Dash exDashEffect) exCtx exLogic = some
      { exLogic with units := exLogic.units.map (fun u =>
          if u.id == exCtx.caster then
            { u with
              velocity := ⟨(match (exCtx.get .Target exLogic).map (fun t => t.position) with
                | some pos => signum (pos.x - exCaster.position.x)
                | none => if exCaster.flip_sprite then -1 else 1) * exDashEffect.speed, 0⟩,
              statuses := u.statuses ++
                [Status.Charge exDashEffect.duration exDashEffect.on_contact] }
          else u) } :=
  dash_process_velocity_status exDashEffect exCtx exLogic exCaster rfl

/-- Witness for C10: on the example state, Damage and Heal processing commute
with removing the caster entity. -/
theorem damage_heal_ignore_caster_witness :
    Effect.process (.Damage ⟨.Energy, 5⟩) exCtx (exLogic.removeUnit exCtx.caster) =
      (Effect.process (.Damage ⟨.Energy, 5⟩) exCtx exLogic).map
        (fun s => s.removeUnit exCtx.caster) ∧
    Effect.process (.Heal ⟨5⟩) exCtx (exLogic.removeUnit exCtx.caster) =
      (Effect.process (.Heal ⟨5⟩) exCtx exLogic).map
        (fun s => s.removeUnit exCtx.caster) :=
  damage_heal_ignore_caster ⟨.Energy, 5⟩ ⟨5⟩ exCtx exLogic exTarget
    (by decide) rfl

/-- Example target directly above the caster: equal x coordinates. -/
noncomputable def exTargetAbove : Unit := { exTarget with position := ⟨0, 5⟩ }

/-- Example state with the target directly above the caster. -/
noncomputable def exLogicAbove : Logic := { exLogic with units := [exCaster, exTargetAbove] }

/-- Counterexample for C8 as stated: with the target directly above the caster
(`target.x = caster.x`), the program dashes at full speed — the caster's new
velocity is `(speed, 0) = (6, 0)` because float `signum` maps zero to `+1` —
whereas the claimed direction, the sign of `target.x - caster.x`, is `0`, so
the claimed velocity `(sign * speed, 0)` would be the zero vector. -/
theorem dash_process_sign_counterexample :
    Effect.process (.Dash exDashEffect) exCtx exLogicAbove = some
      { exLogicAbove with units := exLogicAbove.units.map (fun u =>
          if u.id == exCtx.caster then
            { u with
              velocity := ⟨6, 0⟩,
              statuses := u.statuses ++
                [Status.Charge exDashEffect.duration exDashEffect.on_contact] }
          else u) } ∧
    Real.sign (exTargetAbove.position.x - exCaster.position.x) * exDashEffect.speed
      ≠ 6 := by
  constructor
  · have hstep : Effect.process (.Dash exDashEffect) exCtx exLogicAbove =
        some (exLogicAbove.updateUnit (exCtx.getId .Caster) (fun u =>
          { u with
            velocity := Vec2.smul
              ⟨signum (exTargetAbove.position.x - exCaster.position.x), 0⟩
              exDashEffect.speed,
            statuses := u.statuses ++
              [Status.Charge exDashEffect.duration exDashEffect.on_contact] })) := rfl
    rw [hstep]
    have hunits : (exLogicAbove.updateUnit (exCtx.getId .Caster) (fun u =>
          { u with
            velocity := Vec2.smul
              ⟨signum (exTargetAbove.position.x - exCaster.position.x), 0⟩
              exDashEffect.speed,
            statuses := u.statuses ++
              [Status.Charge exDashEffect.duration exDashEffect.on_contact] })).units =
        List.map (fun u =>
          if u.id == exCtx.caster then
            { u with
              velocity := (⟨6, 0⟩ : Velocity),
              statuses := u.statuses ++
                [Status.Charge exDashEffect.duration exDashEffect.on_contact] }
          else u) exLogicAbove.units := by
      norm_num [Logic.updateUnit, exLogicAbove, exCaster, exTarget, exTargetAbove,
        exCtx, exDashEffect, signum, Vec2.smul, DashEffect.speed, Vec2.ext_iff,
        EffectContext.getId]
    exact congrArg some (Logic.ext rfl hunits rfl rfl rfl rfl)
  · rw [show exTargetAbove.position.x - exCaster.position.x = (0 : ℝ) by
      norm_num [exCaster, exTarget, exTargetAbove]]
    rw [Real.sign_zero]
    norm_num

end Game
